import Mathlib

/-!
Shallow embedding of the ad attribute extraction and filtering pipeline
(`FetchAds` in `model/input/attributes.go`).

The network fetch returns a list of raw ads; the processing loop decodes
each ad's attribute blob, filters by a subcategory allow-list and by
payment method, tallies ad types, and projects qualifying ads into
`AdItem` records.  JSON decoding of an ad's attribute blob is modelled by
an `Option AdAttributes` field on the raw ad: `none` stands for a blob
that fails to unmarshal (the Go code logs and `continue`s), `some` for a
successfully decoded blob (Go's decoding is tolerant by field, so any
well-formed blob decodes to some `AdAttributes` value, absent fields
becoming zero values).
-/

namespace AysheiFeed

/-- One entry of `Values.Images` (`{"src": ...}`). -/
structure ImageRef where
  src : String
deriving DecidableEq

/-- The `values` object of a step (`brand`, `price`, `images`, `ad_type`). -/
structure StepValues where
  brand : String
  price : String
  images : List ImageRef
  adType : String
deriving DecidableEq

/-- One entry of `paymentMethods.data` (`{"value": ...}`). -/
structure PaymentEntry where
  value : String
deriving DecidableEq

/-- The `id` object of a step (`{"id": ..., "value": ...}`). -/
structure StepID where
  id : String
  value : String
deriving DecidableEq

/-- The `data` object of a step. -/
structure StepData where
  id : StepID
  inputSearchValue : String
  values : StepValues
  paymentMethods : List PaymentEntry
deriving DecidableEq

/-- One element of `stepsData`: a named step with its variant payload. -/
structure Step where
  name : String
  data : StepData
deriving DecidableEq

/-- Decoded attributes of one ad: the ordered `stepsData` sequence. -/
structure AdAttributes where
  stepsData : List Step
deriving DecidableEq

/-- One raw ad as returned by the GraphQL query.  `attributes = none`
models an attribute blob that fails to unmarshal. -/
structure RawAd where
  id : String
  draftId : String
  description : String
  codeNumber : String
  attributes : Option AdAttributes
deriving DecidableEq

/-- The output product record (`AdItem` in the Go source). -/
structure AdItem where
  ID : String
  Title : String
  Description : String
  Link : String
  ImageLink : String
  Brand : String
  Price : String
  Availability : String
  CodeNumber : String
deriving DecidableEq

/-- The loop state of `FetchAds`: accumulated items and the two
diagnostic counters. -/
structure FetchState where
  items : List AdItem
  auctionCount : Nat
  otherCount : Nat
deriving DecidableEq

/-- The fixed nine-entry subcategory allow-list (`allowedSubcategories`
map in the Go source; membership replaces the map lookup). -/
def allowedSubcategories : List String :=
  [ "212818c2-5ae3-4a95-88c9-370b3b906df0"
  , "456ceaaa-de4d-449f-8621-3af7253fe452"
  , "5feb2aa4-3361-401b-ab05-d0623bab291b"
  , "7685d106-a4dd-48ed-876b-4dd8116f114c"
  , "34991934-f9ef-457c-9824-c82dad366889"
  , "1c4df47a-e94a-49b4-aeea-1d77dc4f5458"
  , "e84fd5e8-c303-46db-b1c6-e493781aef40"
  , "63d47c2b-a5eb-4439-b45d-ccbaa4ca671a"
  , "73a17eb3-1686-40d6-bcce-edc5c69b5540" ]

/-- First loop of the processing body: `shouldInclude` is set when some
`"search_product"` step's `Data.ID.ID` is in the allow-list (the Go loop
breaks on the first match, which `List.any` reproduces). -/
def shouldInclude (steps : List Step) : Bool :=
  steps.any fun s =>
    decide (s.name = "search_product" ∧ s.data.id.id ∈ allowedSubcategories)

/-- Body of the second loop: threads `(adType, price, hasOnlinePayment)`
through one step.  A `"delivery_and_payment_methods"` step scans its
payment entries for the literal `"Online Payment"`; a `"product_detail"`
step overwrites `adType` and `price`. -/
def tppStep (acc : String × String × Bool) (step : Step) : String × String × Bool :=
  if step.name = "delivery_and_payment_methods" then
    (acc.1, acc.2.1,
      step.data.paymentMethods.foldl
        (fun h pm => if pm.value = "Online Payment" then true else h) acc.2.2)
  else if step.name = "product_detail" then
    (step.data.values.adType, step.data.values.price, acc.2.2)
  else acc

/-- Second loop of the processing body: extract `adType`, `price` and
`hasOnlinePayment` from the step sequence, all initialised to zero
values. -/
def extractTypePricePayment (steps : List Step) : String × String × Bool :=
  steps.foldl tppStep ("", "", false)

/-- Body of the third loop: threads `(title, brand, imageSrc)` through
one step.  A `"search_product"` step overwrites `title`; a
`"product_detail"` step overwrites `brand` and, only when its image list
is non-empty, `imageSrc` with the first image's `src`. -/
def tbiStep (acc : String × String × String) (step : Step) : String × String × String :=
  if step.name = "search_product" then
    (step.data.inputSearchValue, acc.2.1, acc.2.2)
  else if step.name = "product_detail" then
    (acc.1, step.data.values.brand,
      match step.data.values.images with
      | [] => acc.2.2
      | img :: _ => img.src)
  else acc

/-- Third loop of the processing body: extract `title`, `brand` and
`imageSrc` from the step sequence. -/
def extractTitleBrandImage (steps : List Step) : String × String × String :=
  steps.foldl tbiStep ("", "", "")

/-- `strings.ReplaceAll(s, pat, "")` for a single-character pattern:
every occurrence of the character is removed. -/
def removeAllChar (c : Char) (s : String) : String :=
  String.mk (s.data.filter fun a => a ≠ c)

/-- The Unicode LEFT-TO-RIGHT MARK (U+200E) stripped from descriptions. -/
def lrm : Char := Char.ofNat 0x200E

/-- The `fmt.Sprintf` building `imageLink`: empty stays empty, otherwise
the fixed resizing-proxy template with `draftId` and the raw image path
substituted. -/
def mkImageLink (draftId imageSrc : String) : String :=
  if imageSrc = "" then ""
  else
    "https://ayshei.com/_next/image?url=https://storage.ayshei.com/prod/public/drafts/"
      ++ draftId ++ "/web/" ++ imageSrc ++ "&amp;w=3840&amp;q=75"

/-- Construction of the output `AdItem` from the extracted fields:
`&` stripped from the title, U+200E stripped from the description, the
product link and image link templates, the `" AED"` price suffix and the
constant availability. -/
def buildItem (ad : RawAd) (title brand price imageSrc : String) : AdItem :=
  { ID := ad.id
  , Title := removeAllChar '&' title
  , Description := removeAllChar lrm ad.description
  , Link := "https://ayshei.com/product/" ++ ad.id
  , ImageLink := mkImageLink ad.draftId imageSrc
  , Brand := brand
  , Price := price ++ " AED"
  , Availability := "in stock"
  , CodeNumber := ad.codeNumber }

/-- Processing of one subcategory-matching ad: tally the ad type, then,
when `"Online Payment"` was found and the code number is non-empty,
append the projected record. -/
def processIncluded (st : FetchState) (ad : RawAd) (attrs : AdAttributes) : FetchState :=
  let tpp := extractTypePricePayment attrs.stepsData
  let st1 :=
    if tpp.1 = "auction" then
      { st with auctionCount := st.auctionCount + 1 }
    else
      { st with otherCount := st.otherCount + 1 }
  if tpp.2.2 then
    let tbi := extractTitleBrandImage attrs.stepsData
    if ad.codeNumber = "" then st1
    else { st1 with items := st1.items ++ [buildItem ad tbi.1 tbi.2.1 tpp.2.1 tbi.2.2] }
  else st1

/-- One iteration of the main loop of `FetchAds`: skip the ad when its
attribute blob fails to decode or when no allow-listed subcategory
matches, otherwise process it. -/
def processAd (st : FetchState) (ad : RawAd) : FetchState :=
  match ad.attributes with
  | none => st
  | some attrs =>
    if shouldInclude attrs.stepsData then processIncluded st ad attrs
    else st

/-- The whole filtering-and-projection pass of `FetchAds` over the
fetched ads, starting from empty items and zero counters. -/
def processAds (ads : List RawAd) : FetchState :=
  ads.foldl processAd { items := [], auctionCount := 0, otherCount := 0 }

/-- The last step of the sequence satisfying `p` (scanning from the
end). -/
def findLastStep (p : Step → Bool) (steps : List Step) : Option Step :=
  steps.reverse.find? p

/-- `findLastStep` with an explicit fallback value: the field `f` of the
last step satisfying `p`, or the default `d` when no step matches. -/
def lastValueD (p : Step → Bool) (f : Step → String) (d : String)
    (steps : List Step) : String :=
  match findLastStep p steps with
  | some s => f s
  | none => d

/-- Modelled from the spec: the last-occurrence-wins reading of field
extraction — the field of the last step satisfying `p`, with the empty
string as zero value when no step matches. -/
def specLastValue (p : Step → Bool) (f : Step → String) (steps : List Step) : String :=
  lastValueD p f "" steps

/-- Discriminator test for `"search_product"` steps. -/
def isSearchProduct (s : Step) : Bool := decide (s.name = "search_product")

/-- Discriminator test for `"product_detail"` steps. -/
def isProductDetail (s : Step) : Bool := decide (s.name = "product_detail")

/-- A `"product_detail"` step carrying at least one image. -/
def isProductDetailWithImage (s : Step) : Bool :=
  decide (s.name = "product_detail") && !s.data.values.images.isEmpty

/-- First image source of a step, empty when the image list is empty. -/
def firstImageSrc (s : Step) : String :=
  match s.data.values.images with
  | [] => ""
  | img :: _ => img.src

/-- A step named `"delivery_and_payment_methods"` carrying the literal
`"Online Payment"` among its payment entries. -/
def hasOnlinePaymentEntry (s : Step) : Bool :=
  decide (s.name = "delivery_and_payment_methods") &&
    s.data.paymentMethods.any fun pm => decide (pm.value = "Online Payment")

/-! Concrete fixtures used to instantiate the theorems below. -/

/-- Step values with all fields at their zero values. -/
def zeroValues : StepValues :=
  { brand := "", price := "", images := [], adType := "" }

/-- Convenience constructor for a concrete step. -/
def mkStep (name subId searchVal : String) (vals : StepValues)
    (pays : List PaymentEntry) : Step :=
  { name := name
  , data :=
    { id := { id := subId, value := "" }
    , inputSearchValue := searchVal
    , values := vals
    , paymentMethods := pays } }

/-- The first allow-listed subcategory identifier. -/
def allowedId : String := "212818c2-5ae3-4a95-88c9-370b3b906df0"

/-- A `"search_product"` step with an allow-listed subcategory. -/
def searchStepAllowed : Step :=
  mkStep "search_product" allowedId "Nice Bag" zeroValues []

/-- A `"search_product"` step whose subcategory is not allow-listed. -/
def searchStepOther : Step :=
  mkStep "search_product" "not-in-the-list" "Nice Bag" zeroValues []

/-- A payment step offering `"Online Payment"` (among others). -/
def payStepOnline : Step :=
  mkStep "delivery_and_payment_methods" "" "" zeroValues
    [{ value := "Cash on Delivery" }, { value := "Online Payment" }]

/-- A payment step without `"Online Payment"`. -/
def payStepCash : Step :=
  mkStep "delivery_and_payment_methods" "" "" zeroValues
    [{ value := "Cash on Delivery" }]

/-- A `"product_detail"` step with brand, price, an image and a
non-auction ad type. -/
def detailStep : Step :=
  mkStep "product_detail" "" ""
    { brand := "BrandX", price := "100"
    , images := [{ src := "abc/def.jpg" }], adType := "normal" } []

/-- A `"product_detail"` step with ad type `"auction"`. -/
def detailStepAuction : Step :=
  mkStep "product_detail" "" ""
    { brand := "BrandY", price := "250"
    , images := [{ src := "abc/def.jpg" }], adType := "auction" } []

/-- A `"product_detail"` step carrying one image. -/
def detailStepImg : Step :=
  mkStep "product_detail" "" ""
    { brand := "B1", price := "10", images := [{ src := "a.jpg" }]
    , adType := "x" } []

/-- A later `"product_detail"` step with an empty image list. -/
def detailStepNoImg : Step :=
  mkStep "product_detail" "" ""
    { brand := "B2", price := "20", images := [], adType := "y" } []

/-- Duplicate `"product_detail"` steps: the later one has no images. -/
def stepsDupDetail : List Step := [detailStepImg, detailStepNoImg]

/-- The empty initial loop state. -/
def st0 : FetchState := { items := [], auctionCount := 0, otherCount := 0 }

/-- An ad whose only `"search_product"` step is not allow-listed, yet
which offers `"Online Payment"`. -/
def attrsNoMatch : AdAttributes := ⟨[searchStepOther, payStepOnline, detailStep]⟩

/-- See `attrsNoMatch`. -/
def adNoMatch : RawAd :=
  { id := "A1", draftId := "D1", description := "d1", codeNumber := "111"
  , attributes := some attrsNoMatch }

/-- An allow-listed ad without `"Online Payment"` and without any
`"product_detail"` step (so its ad type is empty). -/
def attrsNoPay : AdAttributes := ⟨[searchStepAllowed, payStepCash]⟩

/-- See `attrsNoPay`. -/
def adNoPay : RawAd :=
  { id := "A2", draftId := "D2", description := "d2", codeNumber := "222"
  , attributes := some attrsNoPay }

/-- An ad whose attribute blob fails to unmarshal. -/
def adMalformed : RawAd :=
  { id := "A3", draftId := "D3", description := "d3", codeNumber := "333"
  , attributes := none }

/-- An allow-listed, online-payment ad with an empty code number. -/
def attrsNoCode : AdAttributes := ⟨[searchStepAllowed, payStepOnline, detailStep]⟩

/-- See `attrsNoCode`. -/
def adNoCode : RawAd :=
  { id := "A4", draftId := "D4", description := "d4", codeNumber := ""
  , attributes := some attrsNoCode }

/-- An allow-listed, online-payment auction ad with an empty code
number. -/
def attrsAuctionNoCode : AdAttributes :=
  ⟨[searchStepAllowed, payStepOnline, detailStepAuction]⟩

/-- See `attrsAuctionNoCode`. -/
def adAuctionNoCode : RawAd :=
  { id := "A5", draftId := "D5", description := "d5", codeNumber := ""
  , attributes := some attrsAuctionNoCode }

/-- A fully qualifying auction ad (allow-listed, online payment,
non-empty code number). -/
def attrsAuction : AdAttributes :=
  ⟨[searchStepAllowed, payStepOnline, detailStepAuction]⟩

/-- See `attrsAuction`. -/
def adAuction : RawAd :=
  { id := "A6", draftId := "D6", description := "d6", codeNumber := "666"
  , attributes := some attrsAuction }

/-- A `"search_product"` step (allow-listed) whose search text contains
ampersands. -/
def searchStepAmp : Step :=
  mkStep "search_product" allowedId "Bags & Straps & Co" zeroValues []

/-- A qualifying ad whose title contains `&` and whose description
contains U+200E. -/
def attrsDirty : AdAttributes := ⟨[searchStepAmp, payStepOnline, detailStep]⟩

/-- See `attrsDirty`. -/
def adDirty : RawAd :=
  { id := "A8", draftId := "D8"
  , description := String.mk ['a', lrm, 'b', lrm, 'c']
  , codeNumber := "888", attributes := some attrsDirty }

/-- The record the pipeline produces for `adDirty`. -/
def itemDirty : AdItem :=
  buildItem adDirty
    (extractTitleBrandImage attrsDirty.stepsData).1
    (extractTitleBrandImage attrsDirty.stepsData).2.1
    (extractTypePricePayment attrsDirty.stepsData).2.1
    (extractTitleBrandImage attrsDirty.stepsData).2.2

/-- A qualifying ad with no `"product_detail"` step at all. -/
def attrsNoDetail : AdAttributes := ⟨[searchStepAllowed, payStepOnline]⟩

/-- See `attrsNoDetail`. -/
def adNoDetail : RawAd :=
  { id := "A10", draftId := "D10", description := "d10", codeNumber := "1010"
  , attributes := some attrsNoDetail }

lemma lastValueD_cons (p : Step → Bool) (f : Step → String) (d : String)
    (s : Step) (rest : List Step) :
    lastValueD p f d (s :: rest) = lastValueD p f (if p s then f s else d) rest := by
  unfold lastValueD findLastStep
  rw [List.reverse_cons, List.find?_append]
  cases h : rest.reverse.find? p with
  | none => cases hp : p s <;> simp [List.find?, hp]
  | some t => simp

lemma lastValueD_nil (p : Step → Bool) (f : Step → String) (d : String) :
    lastValueD p f d [] = d := rfl

lemma payment_foldl_eq (l : List PaymentEntry) (h : Bool) :
    l.foldl (fun h pm => if pm.value = "Online Payment" then true else h) h
      = (h || l.any fun pm => decide (pm.value = "Online Payment")) := by
  induction l generalizing h with
  | nil => simp
  | cons pm rest ih =>
    rw [List.foldl_cons, ih, List.any_cons]
    by_cases hv : pm.value = "Online Payment" <;> simp [hv]

lemma foldl_tppStep_eq (steps : List Step) (a p : String) (h : Bool) :
    steps.foldl tppStep (a, p, h) =
      ( lastValueD isProductDetail (fun s => s.data.values.adType) a steps
      , lastValueD isProductDetail (fun s => s.data.values.price) p steps
      , h || steps.any hasOnlinePaymentEntry ) := by
  induction steps generalizing a p h with
  | nil => simp [lastValueD_nil]
  | cons s rest ih =>
    rw [List.foldl_cons, List.any_cons, lastValueD_cons, lastValueD_cons]
    by_cases h1 : s.name = "delivery_and_payment_methods"
    · have hpd : isProductDetail s = false := by
        simp [isProductDetail, h1]
      have hop : hasOnlinePaymentEntry s
          = s.data.paymentMethods.any fun pm => decide (pm.value = "Online Payment") := by
        simp [hasOnlinePaymentEntry, h1]
      simp only [tppStep, if_pos h1, payment_foldl_eq, ih, hpd, hop,
        Bool.if_false_left, Bool.or_assoc, if_neg (Bool.false_ne_true), ite_false]
    · by_cases h2 : s.name = "product_detail"
      · have hpd : isProductDetail s = true := by
          simp [isProductDetail, h2]
        have hop : hasOnlinePaymentEntry s = false := by
          simp [hasOnlinePaymentEntry, h1]
        simp [tppStep, h1, h2, ih, hpd, hop]
      · have hpd : isProductDetail s = false := by
          simp [isProductDetail, h2]
        have hop : hasOnlinePaymentEntry s = false := by
          simp [hasOnlinePaymentEntry, h1]
        simp [tppStep, h1, h2, ih, hpd, hop]

lemma foldl_tbiStep_eq (steps : List Step) (t b i : String) :
    steps.foldl tbiStep (t, b, i) =
      ( lastValueD isSearchProduct (fun s => s.data.inputSearchValue) t steps
      , lastValueD isProductDetail (fun s => s.data.values.brand) b steps
      , lastValueD isProductDetailWithImage firstImageSrc i steps ) := by
  induction steps generalizing t b i with
  | nil => simp [lastValueD_nil]
  | cons s rest ih =>
    rw [List.foldl_cons, lastValueD_cons, lastValueD_cons, lastValueD_cons]
    by_cases h1 : s.name = "search_product"
    · have hsp : isSearchProduct s = true := by simp [isSearchProduct, h1]
      have hpd : isProductDetail s = false := by simp [isProductDetail, h1]
      have hpw : isProductDetailWithImage s = false := by
        simp [isProductDetailWithImage, h1]
      simp [tbiStep, h1, ih, hsp, hpd, hpw]
    · by_cases h2 : s.name = "product_detail"
      · have hsp : isSearchProduct s = false := by simp [isSearchProduct, h2]
        have hpd : isProductDetail s = true := by simp [isProductDetail, h2]
        cases himg : s.data.values.images with
        | nil =>
          have hpw : isProductDetailWithImage s = false := by
            simp [isProductDetailWithImage, himg]
          simp [tbiStep, h1, h2, himg, ih, hsp, hpd, hpw]
        | cons img imgs =>
          have hpw : isProductDetailWithImage s = true := by
            simp [isProductDetailWithImage, h2, himg]
          have hfi : firstImageSrc s = img.src := by
            simp [firstImageSrc, himg]
          simp [tbiStep, h1, h2, himg, ih, hsp, hpd, hpw, hfi]
      · have hsp : isSearchProduct s = false := by simp [isSearchProduct, h1]
        have hpd : isProductDetail s = false := by simp [isProductDetail, h2]
        have hpw : isProductDetailWithImage s = false := by
          simp [isProductDetailWithImage, h2]
        simp [tbiStep, h1, h2, ih, hsp, hpd, hpw]

lemma extractTypePricePayment_eq (steps : List Step) :
    extractTypePricePayment steps =
      ( specLastValue isProductDetail (fun s => s.data.values.adType) steps
      , specLastValue isProductDetail (fun s => s.data.values.price) steps
      , steps.any hasOnlinePaymentEntry ) := by
  rw [extractTypePricePayment, foldl_tppStep_eq]
  simp [specLastValue]

lemma extractTitleBrandImage_eq (steps : List Step) :
    extractTitleBrandImage steps =
      ( specLastValue isSearchProduct (fun s => s.data.inputSearchValue) steps
      , specLastValue isProductDetail (fun s => s.data.values.brand) steps
      , specLastValue isProductDetailWithImage firstImageSrc steps ) := by
  rw [extractTitleBrandImage, foldl_tbiStep_eq]
  simp [specLastValue]

lemma hasPayment_iff (steps : List Step) :
    (extractTypePricePayment steps).2.2 = true ↔
      ∃ s ∈ steps, s.name = "delivery_and_payment_methods" ∧
        ∃ pm ∈ s.data.paymentMethods, pm.value = "Online Payment" := by
  rw [extractTypePricePayment_eq]
  simp [hasOnlinePaymentEntry]

lemma shouldInclude_iff (steps : List Step) :
    shouldInclude steps = true ↔
      ∃ s ∈ steps, s.name = "search_product" ∧
        s.data.id.id ∈ allowedSubcategories := by
  simp [shouldInclude]

lemma findLastStep_eq_none (p : Step → Bool) (steps : List Step) :
    findLastStep p steps = none ↔ ∀ s ∈ steps, ¬ p s := by
  simp [findLastStep, List.find?_eq_none, List.mem_reverse]

lemma processAd_attrs_none (st : FetchState) (ad : RawAd)
    (h : ad.attributes = none) : processAd st ad = st := by
  simp [processAd, h]

lemma processAd_notIncluded (st : FetchState) (ad : RawAd) (attrs : AdAttributes)
    (h1 : ad.attributes = some attrs)
    (h2 : shouldInclude attrs.stepsData = false) : processAd st ad = st := by
  simp [processAd, h1, h2]

lemma processAd_included (st : FetchState) (ad : RawAd) (attrs : AdAttributes)
    (h1 : ad.attributes = some attrs)
    (h2 : shouldInclude attrs.stepsData = true) :
    processAd st ad = processIncluded st ad attrs := by
  simp [processAd, h1, h2]

lemma processIncluded_auctionCount (st : FetchState) (ad : RawAd) (attrs : AdAttributes) :
    (processIncluded st ad attrs).auctionCount =
      if (extractTypePricePayment attrs.stepsData).1 = "auction" then
        st.auctionCount + 1
      else st.auctionCount := by
  by_cases h1 : (extractTypePricePayment attrs.stepsData).1 = "auction" <;>
    by_cases h2 : (extractTypePricePayment attrs.stepsData).2.2 <;>
    by_cases h3 : ad.codeNumber = "" <;>
    simp [processIncluded, h1, h2, h3]

lemma processIncluded_otherCount (st : FetchState) (ad : RawAd) (attrs : AdAttributes) :
    (processIncluded st ad attrs).otherCount =
      if (extractTypePricePayment attrs.stepsData).1 = "auction" then
        st.otherCount
      else st.otherCount + 1 := by
  by_cases h1 : (extractTypePricePayment attrs.stepsData).1 = "auction" <;>
    by_cases h2 : (extractTypePricePayment attrs.stepsData).2.2 <;>
    by_cases h3 : ad.codeNumber = "" <;>
    simp [processIncluded, h1, h2, h3]

lemma processIncluded_items_noPay (st : FetchState) (ad : RawAd) (attrs : AdAttributes)
    (h2 : (extractTypePricePayment attrs.stepsData).2.2 = false) :
    (processIncluded st ad attrs).items = st.items := by
  by_cases h1 : (extractTypePricePayment attrs.stepsData).1 = "auction" <;>
    simp [processIncluded, h1, h2]

lemma processIncluded_items_noCode (st : FetchState) (ad : RawAd) (attrs : AdAttributes)
    (h3 : ad.codeNumber = "") :
    (processIncluded st ad attrs).items = st.items := by
  by_cases h1 : (extractTypePricePayment attrs.stepsData).1 = "auction" <;>
    by_cases h2 : (extractTypePricePayment attrs.stepsData).2.2 <;>
    simp [processIncluded, h1, h2, h3]

lemma processIncluded_items_emit (st : FetchState) (ad : RawAd) (attrs : AdAttributes)
    (h2 : (extractTypePricePayment attrs.stepsData).2.2 = true)
    (h3 : ¬ ad.codeNumber = "") :
    (processIncluded st ad attrs).items =
      st.items ++ [buildItem ad
        (extractTitleBrandImage attrs.stepsData).1
        (extractTitleBrandImage attrs.stepsData).2.1
        (extractTypePricePayment attrs.stepsData).2.1
        (extractTitleBrandImage attrs.stepsData).2.2] := by
  by_cases h1 : (extractTypePricePayment attrs.stepsData).1 = "auction" <;>
    simp [processIncluded, h1, h2, h3]

lemma mem_processAd_items (st : FetchState) (ad : RawAd) (item : AdItem)
    (h : item ∈ (processAd st ad).items) :
    item ∈ st.items ∨
      ∃ t b p i, ¬ ad.codeNumber = "" ∧ item = buildItem ad t b p i := by
  cases hat : ad.attributes with
  | none =>
    rw [processAd_attrs_none st ad hat] at h
    exact Or.inl h
  | some attrs =>
    by_cases hs : shouldInclude attrs.stepsData
    · rw [processAd_included st ad attrs hat hs] at h
      by_cases h2 : (extractTypePricePayment attrs.stepsData).2.2
      · by_cases h3 : ad.codeNumber = ""
        · rw [processIncluded_items_noCode st ad attrs h3] at h
          exact Or.inl h
        · rw [processIncluded_items_emit st ad attrs h2 h3] at h
          rcases List.mem_append.mp h with hmem | hmem
          · exact Or.inl hmem
          · exact Or.inr ⟨_, _, _, _, h3, List.mem_singleton.mp hmem⟩
      · rw [processIncluded_items_noPay st ad attrs (Bool.not_eq_true _ ▸ h2)] at h
        exact Or.inl h
    · rw [processAd_notIncluded st ad attrs hat (Bool.not_eq_true _ ▸ hs)] at h
      exact Or.inl h

lemma mem_foldl_processAd (ads : List RawAd) (st : FetchState) (item : AdItem)
    (h : item ∈ (ads.foldl processAd st).items) :
    item ∈ st.items ∨
      ∃ ad ∈ ads, ∃ t b p i, ¬ ad.codeNumber = "" ∧ item = buildItem ad t b p i := by
  induction ads generalizing st with
  | nil => exact Or.inl h
  | cons a rest ih =>
    rw [List.foldl_cons] at h
    rcases ih (processAd st a) h with h1 | h1
    · rcases mem_processAd_items st a item h1 with h2 | h2
      · exact Or.inl h2
      · exact Or.inr ⟨a, List.mem_cons_self a rest, h2⟩
    · rcases h1 with ⟨ad, had, hrest⟩
      exact Or.inr ⟨ad, List.mem_cons_of_mem a had, hrest⟩

lemma mem_processAds_items (ads : List RawAd) (item : AdItem)
    (h : item ∈ (processAds ads).items) :
    ∃ ad ∈ ads, ∃ t b p i, ¬ ad.codeNumber = "" ∧ item = buildItem ad t b p i := by
  rcases mem_foldl_processAd ads _ item h with h1 | h1
  · simp at h1
  · exact h1

lemma not_mem_removeAllChar (c : Char) (s : String) :
    c ∉ (removeAllChar c s).data := by
  simp [removeAllChar, List.mem_filter]

/-- Claim C1: a fetched ad whose decoded steps contain no
`"search_product"` step with an allow-listed subcategory identifier
contributes nothing to the run: neither diagnostic counter changes and
no record is emitted, regardless of the ad's payment methods. -/
theorem c1_no_subcategory_match_no_effect (st : FetchState) (ad : RawAd)
    (attrs : AdAttributes) (h1 : ad.attributes = some attrs)
    (h2 : ∀ s ∈ attrs.stepsData,
      ¬ (s.name = "search_product" ∧ s.data.id.id ∈ allowedSubcategories)) :
    processAd st ad = st := by
  have hs : shouldInclude attrs.stepsData = false := by
    cases hb : shouldInclude attrs.stepsData
    · rfl
    · rcases (shouldInclude_iff _).mp hb with ⟨s, hmem, hprop⟩
      exact absurd hprop (h2 s hmem)
  exact processAd_notIncluded st ad attrs h1 hs

/-- Witness for C1: a concrete non-matching ad that offers
`"Online Payment"` leaves the state untouched. -/
theorem c1_no_subcategory_match_no_effect_witness :
    processAd st0 adNoMatch = st0 :=
  c1_no_subcategory_match_no_effect st0 adNoMatch attrsNoMatch rfl (by decide)

/-- Claim C2: a subcategory-matching ad none of whose
`"delivery_and_payment_methods"` steps carries the literal
`"Online Payment"` bumps exactly one diagnostic counter (`auctionCount`
when its extracted ad type is `"auction"`, `otherCount` otherwise,
including the empty ad type) and emits no record. -/
theorem c2_subcategory_match_no_payment_counted_only (st : FetchState)
    (ad : RawAd) (attrs : AdAttributes) (h1 : ad.attributes = some attrs)
    (h2 : ∃ s ∈ attrs.stepsData, s.name = "search_product" ∧
      s.data.id.id ∈ allowedSubcategories)
    (h3 : ∀ s ∈ attrs.stepsData, s.name = "delivery_and_payment_methods" →
      ∀ pm ∈ s.data.paymentMethods, ¬ pm.value = "Online Payment") :
    (processAd st ad).items = st.items ∧
    (if (extractTypePricePayment attrs.stepsData).1 = "auction" then
      (processAd st ad).auctionCount = st.auctionCount + 1 ∧
      (processAd st ad).otherCount = st.otherCount
    else
      (processAd st ad).auctionCount = st.auctionCount ∧
      (processAd st ad).otherCount = st.otherCount + 1) := by
  have hs : shouldInclude attrs.stepsData = true := (shouldInclude_iff _).mpr h2
  have hp : (extractTypePricePayment attrs.stepsData).2.2 = false := by
    cases hb : (extractTypePricePayment attrs.stepsData).2.2
    · rfl
    · rcases (hasPayment_iff _).mp hb with ⟨s, hmem, hname, pm, hpm, hval⟩
      exact absurd hval (h3 s hmem hname pm hpm)
  rw [processAd_included st ad attrs h1 hs]
  refine ⟨processIncluded_items_noPay st ad attrs hp, ?_⟩
  by_cases ha : (extractTypePricePayment attrs.stepsData).1 = "auction"
  · rw [if_pos ha]
    exact ⟨by rw [processIncluded_auctionCount, if_pos ha],
      by rw [processIncluded_otherCount, if_pos ha]⟩
  · rw [if_neg ha]
    exact ⟨by rw [processIncluded_auctionCount, if_neg ha],
      by rw [processIncluded_otherCount, if_neg ha]⟩

/-- Witness for C2: a concrete matching ad without online payment and
with an empty ad type is tallied in `otherCount` only. -/
theorem c2_subcategory_match_no_payment_counted_only_witness :
    (processAd st0 adNoPay).items = st0.items ∧
    (if (extractTypePricePayment attrsNoPay.stepsData).1 = "auction" then
      (processAd st0 adNoPay).auctionCount = st0.auctionCount + 1 ∧
      (processAd st0 adNoPay).otherCount = st0.otherCount
    else
      (processAd st0 adNoPay).auctionCount = st0.auctionCount ∧
      (processAd st0 adNoPay).otherCount = st0.otherCount + 1) :=
  c2_subcategory_match_no_payment_counted_only st0 adNoPay attrsNoPay rfl
    (by decide) (by decide)

/-- Claim C3 counterexample: with two `"product_detail"` steps where
only the earlier one carries an image, the extracted image source comes
from the earlier step, not from the last step of that name as the claim
states (the last step's first image source is empty). -/
theorem c3_last_occurrence_wins_counterexample :
    ¬ ((extractTitleBrandImage stepsDupDetail).2.2
        = specLastValue isProductDetail firstImageSrc stepsDupDetail) := by
  decide

/-- Claim C3 (amended): title, brand, price and ad type are resolved by
last-occurrence-wins over steps of the respective name; the image
source, however, comes from the last `"product_detail"` step whose image
list is non-empty (empty when there is no such step), not from the last
`"product_detail"` step outright. -/
theorem c3_last_occurrence_wins_amended (steps : List Step) :
    (extractTypePricePayment steps).1
        = specLastValue isProductDetail (fun s => s.data.values.adType) steps ∧
    (extractTypePricePayment steps).2.1
        = specLastValue isProductDetail (fun s => s.data.values.price) steps ∧
    (extractTitleBrandImage steps).1
        = specLastValue isSearchProduct (fun s => s.data.inputSearchValue) steps ∧
    (extractTitleBrandImage steps).2.1
        = specLastValue isProductDetail (fun s => s.data.values.brand) steps ∧
    (extractTitleBrandImage steps).2.2
        = specLastValue isProductDetailWithImage firstImageSrc steps := by
  rw [extractTypePricePayment_eq, extractTitleBrandImage_eq]
  exact ⟨rfl, rfl, rfl, rfl, rfl⟩

/-- Claim C4: an ad whose attribute blob fails to decode contributes no
record and no diagnostics, and the run is exactly the run with that ad
absent. -/
theorem c4_malformed_ad_isolated (pre post : List RawAd) (ad : RawAd)
    (h : ad.attributes = none) :
    processAds (pre ++ ad :: post) = processAds (pre ++ post) := by
  unfold processAds
  rw [List.foldl_append, List.foldl_append, List.foldl_cons,
    processAd_attrs_none _ ad h]

/-- Witness for C4: dropping a concrete malformed ad between two good
ads does not change the run's outcome. -/
theorem c4_malformed_ad_isolated_witness :
    processAds ([adNoPay] ++ adMalformed :: [adAuction])
      = processAds ([adNoPay] ++ [adAuction]) :=
  c4_malformed_ad_isolated [adNoPay] [adAuction] adMalformed rfl

/-- Claim C5: every record the pass outputs has a non-empty code number;
a subcategory-matching ad with qualifying payment but empty code number
emits no record even though one diagnostic counter was already bumped. -/
theorem c5_code_number_invariant :
    (∀ (ads : List RawAd) (item : AdItem),
      item ∈ (processAds ads).items → ¬ item.CodeNumber = "") ∧
    (∀ (st : FetchState) (ad : RawAd) (attrs : AdAttributes),
      ad.attributes = some attrs →
      (∃ s ∈ attrs.stepsData, s.name = "search_product" ∧
        s.data.id.id ∈ allowedSubcategories) →
      (∃ s ∈ attrs.stepsData, s.name = "delivery_and_payment_methods" ∧
        ∃ pm ∈ s.data.paymentMethods, pm.value = "Online Payment") →
      ad.codeNumber = "" →
      (processAd st ad).items = st.items ∧
      (processAd st ad).auctionCount + (processAd st ad).otherCount
        = st.auctionCount + st.otherCount + 1) := by
  constructor
  · intro ads item hmem
    rcases mem_processAds_items ads item hmem with ⟨ad, _, t, b, p, i, hcode, hitem⟩
    rw [hitem]
    exact hcode
  · intro st ad attrs h1 h2 h3 h4
    have hs : shouldInclude attrs.stepsData = true := (shouldInclude_iff _).mpr h2
    rw [processAd_included st ad attrs h1 hs]
    refine ⟨processIncluded_items_noCode st ad attrs h4, ?_⟩
    rw [processIncluded_auctionCount, processIncluded_otherCount]
    by_cases ha : (extractTypePricePayment attrs.stepsData).1 = "auction"
    · rw [if_pos ha, if_pos ha]
      omega
    · rw [if_neg ha, if_neg ha]
      omega

/-- Witness for C5: a concrete qualifying ad with empty code number is
counted once but emits nothing. -/
theorem c5_code_number_invariant_witness :
    (processAd st0 adNoCode).items = st0.items ∧
    (processAd st0 adNoCode).auctionCount + (processAd st0 adNoCode).otherCount
      = st0.auctionCount + st0.otherCount + 1 :=
  c5_code_number_invariant.2 st0 adNoCode attrsNoCode rfl (by decide)
    (by decide) rfl

/-- Claim C6 counterexample: a subcategory-matching ad with qualifying
payment for which no record is emitted — its code number is empty, so
the claim that every such ad yields a record is false as stated. -/
theorem c6_payment_implies_emitted_counterexample :
    adAuctionNoCode.attributes = some attrsAuctionNoCode ∧
    shouldInclude attrsAuctionNoCode.stepsData = true ∧
    (extractTypePricePayment attrsAuctionNoCode.stepsData).2.2 = true ∧
    (processAd st0 adAuctionNoCode).items = [] := by
  exact ⟨rfl, by decide, by decide, by decide⟩

/-- Claim C6 (amended): for every subcategory-matching ad with
qualifying payment and a non-empty code number, a record is emitted; the
statement puts no condition on the extracted ad type, so an `"auction"`
ad is projected like any other (ad type is tallied for diagnostics
only, never used as an exclusion filter). -/
theorem c6_qualifying_ad_emitted (st : FetchState) (ad : RawAd)
    (attrs : AdAttributes) (h1 : ad.attributes = some attrs)
    (h2 : ∃ s ∈ attrs.stepsData, s.name = "search_product" ∧
      s.data.id.id ∈ allowedSubcategories)
    (h3 : ∃ s ∈ attrs.stepsData, s.name = "delivery_and_payment_methods" ∧
      ∃ pm ∈ s.data.paymentMethods, pm.value = "Online Payment")
    (h4 : ¬ ad.codeNumber = "") :
    (processAd st ad).items = st.items ++ [buildItem ad
      (extractTitleBrandImage attrs.stepsData).1
      (extractTitleBrandImage attrs.stepsData).2.1
      (extractTypePricePayment attrs.stepsData).2.1
      (extractTitleBrandImage attrs.stepsData).2.2] := by
  rw [processAd_included st ad attrs h1 ((shouldInclude_iff _).mpr h2)]
  exact processIncluded_items_emit st ad attrs ((hasPayment_iff _).mpr h3) h4

/-- Witness for C6 (amended): a concrete qualifying ad whose extracted
ad type is `"auction"` is still projected into the output. -/
theorem c6_qualifying_ad_emitted_witness :
    (extractTypePricePayment attrsAuction.stepsData).1 = "auction" ∧
    (processAd st0 adAuction).items = st0.items ++ [buildItem adAuction
      (extractTitleBrandImage attrsAuction.stepsData).1
      (extractTitleBrandImage attrsAuction.stepsData).2.1
      (extractTypePricePayment attrsAuction.stepsData).2.1
      (extractTitleBrandImage attrsAuction.stepsData).2.2] :=
  ⟨by decide, c6_qualifying_ad_emitted st0 adAuction attrsAuction rfl
    (by decide) (by decide) (by decide)⟩

/-- Claim C7: an empty extracted image source gives an empty
`ImageLink`; a non-empty one is substituted together with the draft id
into the fixed resizing-proxy template, and on source `"abc/def.jpg"`
with draft id `"D1"` the result is exactly the spec's URL; every built
record's `ImageLink` is produced this way. -/
theorem c7_image_link_template :
    (∀ d : String, mkImageLink d "" = "") ∧
    (∀ d s : String, ¬ s = "" → mkImageLink d s =
      "https://ayshei.com/_next/image?url=https://storage.ayshei.com/prod/public/drafts/"
        ++ d ++ "/web/" ++ s ++ "&amp;w=3840&amp;q=75") ∧
    mkImageLink "D1" "abc/def.jpg" =
      "https://ayshei.com/_next/image?url=https://storage.ayshei.com/prod/public/drafts/D1/web/abc/def.jpg&amp;w=3840&amp;q=75" ∧
    (∀ (ad : RawAd) (t b p i : String),
      (buildItem ad t b p i).ImageLink = mkImageLink ad.draftId i) := by
  refine ⟨fun d => rfl, fun d s hs => ?_, by decide, fun ad t b p i => rfl⟩
  rw [mkImageLink, if_neg hs]

/-- Witness for C7: the template applied at the spec's concrete input. -/
theorem c7_image_link_template_witness :
    mkImageLink "D1" "abc/def.jpg" =
      "https://ayshei.com/_next/image?url=https://storage.ayshei.com/prod/public/drafts/"
        ++ "D1" ++ "/web/" ++ "abc/def.jpg" ++ "&amp;w=3840&amp;q=75" :=
  c7_image_link_template.2.1 "D1" "abc/def.jpg" (by decide)

/-- Claim C8: no record in the output carries a `&` character in its
title or a U+200E character in its description. -/
theorem c8_output_sanitized (ads : List RawAd) (item : AdItem)
    (h : item ∈ (processAds ads).items) :
    '&' ∉ item.Title.data ∧ lrm ∉ item.Description.data := by
  rcases mem_processAds_items ads item h with ⟨ad, _, t, b, p, i, hcode, hitem⟩
  rw [hitem]
  exact ⟨not_mem_removeAllChar '&' t, not_mem_removeAllChar lrm ad.description⟩

/-- Witness for C8: the record produced for a concrete ad whose source
title has ampersands and whose source description has U+200E marks. -/
theorem c8_output_sanitized_witness :
    '&' ∉ itemDirty.Title.data ∧ lrm ∉ itemDirty.Description.data :=
  c8_output_sanitized [adDirty] itemDirty (by decide)

/-- Claim C9: the filtering-and-projection pass is a deterministic
function of the fetched ads — two runs on identical input produce
identical states, records accumulated in source order. -/
theorem c9_deterministic (ads1 ads2 : List RawAd) (h : ads1 = ads2) :
    processAds ads1 = processAds ads2 := by
  rw [h]

/-- Witness for C9: two runs on a concrete identical ad list agree. -/
theorem c9_deterministic_witness :
    processAds [adNoMatch, adNoPay, adAuction]
      = processAds [adNoMatch, adNoPay, adAuction] :=
  c9_deterministic [adNoMatch, adNoPay, adAuction]
    [adNoMatch, adNoPay, adAuction] rfl

/-- Claim C10: a projected ad with no `"product_detail"` step, or whose
last `"product_detail"` step carries an empty price, is still emitted
and its record's price is exactly `" AED"`. -/
theorem c10_missing_price_aed_suffix (st : FetchState) (ad : RawAd)
    (attrs : AdAttributes) (h1 : ad.attributes = some attrs)
    (h2 : ∃ s ∈ attrs.stepsData, s.name = "search_product" ∧
      s.data.id.id ∈ allowedSubcategories)
    (h3 : ∃ s ∈ attrs.stepsData, s.name = "delivery_and_payment_methods" ∧
      ∃ pm ∈ s.data.paymentMethods, pm.value = "Online Payment")
    (h4 : ¬ ad.codeNumber = "")
    (h5 : (∀ s ∈ attrs.stepsData, ¬ s.name = "product_detail") ∨
      (∃ s, findLastStep isProductDetail attrs.stepsData = some s ∧
        s.data.values.price = "")) :
    ∃ rec : AdItem,
      (processAd st ad).items = st.items ++ [rec] ∧ rec.Price = " AED" := by
  have hprice : (extractTypePricePayment attrs.stepsData).2.1 = "" := by
    rw [extractTypePricePayment_eq]
    rcases h5 with h5 | ⟨s, hfind, hp⟩
    · have hnone : findLastStep isProductDetail attrs.stepsData = none :=
        (findLastStep_eq_none _ _).mpr (by
          intro s hs
          simpa [isProductDetail] using h5 s hs)
      simp [specLastValue, lastValueD, hnone]
    · simp [specLastValue, lastValueD, hfind, hp]
  rw [processAd_included st ad attrs h1 ((shouldInclude_iff _).mpr h2)]
  refine ⟨buildItem ad
      (extractTitleBrandImage attrs.stepsData).1
      (extractTitleBrandImage attrs.stepsData).2.1
      (extractTypePricePayment attrs.stepsData).2.1
      (extractTitleBrandImage attrs.stepsData).2.2,
    processIncluded_items_emit st ad attrs ((hasPayment_iff _).mpr h3) h4, ?_⟩
  show (extractTypePricePayment attrs.stepsData).2.1 ++ " AED" = " AED"
  rw [hprice]
  decide

/-- Witness for C10: a concrete qualifying ad with no `"product_detail"`
step yields a record whose price is exactly `" AED"`. -/
theorem c10_missing_price_aed_suffix_witness :
    ∃ rec : AdItem,
      (processAd st0 adNoDetail).items = st0.items ++ [rec] ∧
      rec.Price = " AED" :=
  c10_missing_price_aed_suffix st0 adNoDetail attrsNoDetail rfl (by decide)
    (by decide) (by decide) (Or.inl (by decide))

end AysheiFeed
